import Mathlib

/-!
Verification of the installation/uninstallation state machine of the
`aii_environment_installer` repository.

The Python sources are shallowly embedded as Lean definitions:

* `src/step_tracker.py` (`StepTracker`)   → the `Ledger` state and the
  operations `start_step`, `complete_step`, `fail_step`, `get_resume_step`,
  `reset_from_step` below.  Timestamps (`datetime.now()`) are modelled by an
  explicit `now : Nat` argument; the durable write `_save_status` is modelled
  by `saveStatus`, which stamps `lastUpdate` and increments a `saveCount`
  field counting the number of on-disk writes.
* `src/installation_status_manager.py` (`InstallationStatusManager`) →
  `MasterStatus` and `get_resume_info`.
* `src/automated_uninstaller.py` (`AutomatedUninstaller.create_uninstall_plan`
  and `main`) → `create_uninstall_plan` and `mainUninstall`, over an abstract
  filesystem `FSModel` describing the top-level entries of the product root.
-/

namespace AiiInstaller

/-! ## StepTracker (src/step_tracker.py) -/

/-- One entry of the static `StepTracker.STEPS` table. -/
structure StepDef where
  name : String
  description : String
  components : List String
deriving DecidableEq, Repr

/-- The compiled-in `StepTracker.STEPS` dictionary (keys 1..8). -/
def STEPS : List (Nat × StepDef) :=
  [ (1, ⟨"Check prerequisites", "Verifying system and disk space",
        ["system_check", "disk_space", "internet"]⟩),
    (2, ⟨"Create directory structure", "Creating base directories",
        ["directories"]⟩),
    (3, ⟨"Install Miniconda",
        "Downloading and installing Python environment manager",
        ["miniconda_download", "miniconda_install", "conda_init"]⟩),
    (4, ⟨"Create AI2025 environment",
        "Setting up conda environment with Python 3.10",
        ["conda_env_create", "conda_env_verify"]⟩),
    (5, ⟨"Install VS Code", "Downloading and installing portable VS Code",
        ["vscode_download", "vscode_extract", "vscode_config",
         "vscode_extensions"]⟩),
    (6, ⟨"Install Python packages",
        "Installing AI and ML libraries using conda",
        ["python_packages"]⟩),
    (7, ⟨"Install Ollama and LLM models",
        "Downloading and installing local AI engine",
        ["ollama_install", "ollama_models"]⟩),
    (8, ⟨"Finalize installation", "Creating shortcuts and startup files",
        ["activation_script", "project_templates", "readme",
         "installation_info"]⟩) ]

/-- Dictionary lookup `STEPS[n]` / membership test `n in STEPS`. -/
def findStep (n : Nat) : Option StepDef :=
  (STEPS.find? (fun kv => kv.1 == n)).map Prod.snd

/-- One value of the `status["step_details"]` dictionary.  The keys
`end_time`/`error` are absent until `complete_step`/`fail_step` write them,
which `Option` models as `none`. -/
structure StepDetail where
  name : String
  description : String
  status : String
  startTime : Nat
  components : List String
  completedComponents : List String
  endTime : Option Nat
  error : Option String
deriving DecidableEq, Repr

/-- The mutable `self.status` dictionary of `StepTracker` (the fields the
tracked operations read or write; constant identification fields such as
`installation_id` are omitted).  The `step_details` dictionary, keyed by the
decimal string of the step number, is modelled as a map from the step number;
`saveCount` counts `_save_status` calls, i.e. durable writes of the ledger
file. -/
structure Ledger where
  currentStep : Nat
  completedSteps : List Nat
  failedSteps : List Nat
  stepDetails : Nat → Option StepDetail
  resumeAvailable : Bool
  lastUpdate : Nat
  saveCount : Nat

/-- `_create_initial_status`: fresh ledger. -/
def initialLedger : Ledger :=
  { currentStep := 1
    completedSteps := []
    failedSteps := []
    stepDetails := fun _ => none
    resumeAvailable := false
    lastUpdate := 0
    saveCount := 0 }

/-- `_save_status`: stamps `last_update` and performs one durable write. -/
def saveStatus (now : Nat) (s : Ledger) : Ledger :=
  { s with lastUpdate := now, saveCount := s.saveCount + 1 }

/-- Dictionary assignment `details[str(k)] = v`. -/
def setDetail (k : Nat) (v : StepDetail) (m : Nat → Option StepDetail) :
    Nat → Option StepDetail :=
  fun j => if j = k then some v else m j

/-- `StepTracker.start_step`. -/
def start_step (now n : Nat) (s : Ledger) : Bool × Ledger :=
  match findStep n with
  | none => (false, s)
  | some sd =>
      let s1 := { s with
        currentStep := n
        stepDetails := setDetail n
          { name := sd.name
            description := sd.description
            status := "in_progress"
            startTime := now
            components := sd.components
            completedComponents := []
            endTime := none
            error := none } s.stepDetails }
      (true, saveStatus now s1)

/-- `StepTracker.complete_step`.  `List.erase` models the guarded
`if n in failed: failed.remove(n)` (Python `remove` deletes the first
occurrence; on an absent element the guard skips, and `List.erase` is the
identity). -/
def complete_step (now n : Nat) (s : Ledger) : Bool × Ledger :=
  match findStep n with
  | none => (false, s)
  | some _ =>
      let completed :=
        if n ∈ s.completedSteps then s.completedSteps
        else s.completedSteps ++ [n]
      let failed := s.failedSteps.erase n
      let details :=
        match s.stepDetails n with
        | some d =>
            setDetail n { d with status := "completed", endTime := some now }
              s.stepDetails
        | none => s.stepDetails
      let cur := if n < STEPS.length then n + 1 else s.currentStep
      (true, saveStatus now { s with
        completedSteps := completed
        failedSteps := failed
        stepDetails := details
        currentStep := cur })

/-- `StepTracker.fail_step`. -/
def fail_step (now n : Nat) (msg : String) (s : Ledger) : Bool × Ledger :=
  match findStep n with
  | none => (false, s)
  | some _ =>
      let failed :=
        if n ∈ s.failedSteps then s.failedSteps
        else s.failedSteps ++ [n]
      let details :=
        match s.stepDetails n with
        | some d =>
            setDetail n { d with
              status := "failed"
              endTime := some now
              error := some msg } s.stepDetails
        | none => s.stepDetails
      (true, saveStatus now { s with
        failedSteps := failed
        stepDetails := details
        resumeAvailable := true })

/-- Python `min` over a non-empty list (`0` on the empty list, which the
caller never hits). -/
def listMin : List Nat → Nat
  | [] => 0
  | x :: xs => xs.foldl Nat.min x

/-- `StepTracker.get_resume_step`. -/
def get_resume_step (s : Ledger) : Nat :=
  if s.failedSteps.isEmpty then s.currentStep else listMin s.failedSteps

/-- `StepTracker.reset_from_step`.  The Python loop deletes the detail keys
`str(s)` for `s in range(step_number, len(STEPS) + 1)`, i.e. exactly the
numeric keys `k` with `step_number ≤ k ≤ 8`. -/
def reset_from_step (now n : Nat) (s : Ledger) : Ledger :=
  saveStatus now { s with
    completedSteps := s.completedSteps.filter (fun x => x < n)
    failedSteps := s.failedSteps.filter (fun x => x < n)
    stepDetails := fun j =>
      if n ≤ j ∧ j < STEPS.length + 1 then none else s.stepDetails j
    currentStep := n
    resumeAvailable := decide (1 < n) }

/-- Ledger states reachable from a fresh ledger by the tracked mutating
operations. -/
inductive Reachable : Ledger → Prop where
  | init : Reachable initialLedger
  | start (now n : Nat) (s : Ledger) :
      Reachable s → Reachable (start_step now n s).2
  | complete (now n : Nat) (s : Ledger) :
      Reachable s → Reachable (complete_step now n s).2
  | fail (now n : Nat) (msg : String) (s : Ledger) :
      Reachable s → Reachable (fail_step now n msg s).2
  | reset (now n : Nat) (s : Ledger) :
      Reachable s → Reachable (reset_from_step now n s)

example : (complete_step 0 3 initialLedger).2.completedSteps = [3] := by decide
example : (fail_step 0 3 "e" initialLedger).2.failedSteps = [3] := by decide
example :
    (complete_step 1 3 (fail_step 0 3 "e" initialLedger).2).2.resumeAvailable
      = true := by decide
example : get_resume_step (fail_step 0 3 "e" initialLedger).2 = 3 := by decide

/-! ## InstallationStatusManager (src/installation_status_manager.py) -/

def STATUS_NO_INSTALLATION : String := "No Installation"

def STATUS_PROCESSING : String := "AI_Environment_Processing_Installation"

def STATUS_COMPLETED : String := "AI_Install_Completed"

def STATUS_UNINSTALLING : String := "Uninstall_Processing"

/-- The fields of the unified `master_installation_status.json` record that
`get_resume_info` reads. -/
structure MasterStatus where
  ai_environment_status : String
  ai_lab_status : String
  ai_environment_last_step : Nat
deriving DecidableEq, Repr

/-- The dictionary returned by
`InstallationStatusManager.get_resume_info`. -/
structure ResumeInfo where
  can_resume : Bool
  ai_environment_resume : Bool
  ai_lab_resume : Bool
  ai_environment_last_step : Nat
  must_complete_uninstall : Bool
deriving DecidableEq, Repr

/-- `InstallationStatusManager.get_resume_info`. -/
def get_resume_info (s : MasterStatus) : ResumeInfo :=
  let info : ResumeInfo :=
    { can_resume := false
      ai_environment_resume := false
      ai_lab_resume := false
      ai_environment_last_step := 0
      must_complete_uninstall := false }
  if s.ai_environment_status = STATUS_UNINSTALLING
      ∨ s.ai_lab_status = STATUS_UNINSTALLING then
    { info with must_complete_uninstall := true, can_resume := true }
  else
    let info :=
      if s.ai_environment_status = STATUS_PROCESSING then
        { info with
          ai_environment_resume := true
          ai_environment_last_step := s.ai_environment_last_step
          can_resume := true }
      else info
    if s.ai_lab_status = STATUS_PROCESSING then
      { info with ai_lab_resume := true, can_resume := true }
    else info

/-! ## AutomatedUninstaller.create_uninstall_plan
(src/automated_uninstaller.py, lines 564-734) -/

/-- `status["pre_install_state"]` as the planner reads it: the captured
pre-install snapshot (`existing_subdirs`, and the `conda_installations`
sub-record with its `'C:/ProgramData/miniconda3'` default path). -/
structure PreState where
  existing_subdirs : List String
  conda_allusers_exists : Bool
  conda_allusers_path : String
deriving DecidableEq, Repr

/-- Default snapshot used when `install_info` carries no status record
(`status.get('pre_install_state', {}) if status else {}`). -/
def emptyPreState : PreState :=
  { existing_subdirs := []
    conda_allusers_exists := false
    conda_allusers_path := "C:/ProgramData/miniconda3" }

/-- The `install_info` dictionary handed to `create_uninstall_plan`. -/
structure InstallInfo where
  ai_environment_path : Option String
  ai_lab_path : Option String
  install_type : String
  status : Option PreState
deriving DecidableEq, Repr

/-- The uninstall `options` dictionary assembled in `main`. -/
structure UninstallOptions where
  auto : Bool
  keep_projects : Bool
  backup : Bool
  dry_run : Bool
deriving DecidableEq, Repr

/-- The abstract filesystem facts `create_uninstall_plan` queries:
the top-level entries of the AI_Environment root as `(name, is_dir)` pairs
(`iterdir`, and `(root / name).exists()` means the name occurs among them),
plus the existence bits for the conda `AI2025` environment, the AI_Lab root,
its `.git` subdirectory, and whether `ai_env_path.relative_to(ai_lab_path)`
succeeds. -/
structure FSModel where
  envEntries : List (String × Bool)
  condaEnvExists : Bool
  labExists : Bool
  labGitExists : Bool
  envNestedInLab : Bool
deriving DecidableEq, Repr

/-- `(ai_env_path / name).exists()`: a top-level entry of that name exists. -/
def envEntryExists (fs : FSModel) (name : String) : Bool :=
  fs.envEntries.any (fun e => e.1 == name)

/-- `pathlib`'s `/` followed by `str(...)`. -/
def pathJoin (a b : String) : String := a ++ "/" ++ b

/-- The `env_dirs` list of `create_uninstall_plan`. -/
def env_dirs : List String :=
  ["Miniconda", "VSCode", "Ollama", "Models", "Tools", "Scripts", "Logs",
   "Projects", "downloads"]

/-- The `env_metadata_files` list of `create_uninstall_plan`. -/
def env_metadata_files : List String :=
  ["installation_status.json", "installation_info.json",
   "activate_ai_env.bat", "README.md", "validation_report.json"]

/-- The plan dictionary built by `create_uninstall_plan`.  The
`conda_env_to_remove`/`conda_path` keys are absent until written; `none`
models both "absent" and Python `None`. -/
structure UninstallPlan where
  ai_environment_path : Option String
  ai_lab_path : Option String
  install_type : String
  to_remove : List String
  to_preserve : List String
  backup_needed : List String
  pre_existing : List String
  warnings : List String
  removal_order : List (String × String)
  conda_env_to_remove : Option String
  conda_path : Option String
deriving DecidableEq, Repr

/-- One iteration of the `for dir_name in env_dirs` loop. -/
def classifyEnvDir (root : String) (pre : PreState) (options : UninstallOptions)
    (fs : FSModel) (plan : UninstallPlan) (dirName : String) : UninstallPlan :=
  if ¬ envEntryExists fs dirName then plan
  else if dirName ∈ pre.existing_subdirs then
    { plan with
      pre_existing := plan.pre_existing ++ [pathJoin root dirName]
      to_preserve := plan.to_preserve ++ [pathJoin root dirName]
      warnings := plan.warnings
        ++ ["Preserving pre-existing directory: " ++ dirName] }
  else if dirName = "Projects" ∧ options.keep_projects then
    let plan1 := { plan with
      to_preserve := plan.to_preserve ++ [pathJoin root dirName]
      warnings := plan.warnings ++ ["Preserving user projects in: " ++ dirName] }
    if options.backup then
      { plan1 with backup_needed := plan1.backup_needed ++ [pathJoin root dirName] }
    else plan1
  else
    { plan with to_remove := plan.to_remove ++ [pathJoin root dirName] }

/-- One iteration of the `for file_name in env_metadata_files` loop. -/
def addMetadataFile (root : String) (fs : FSModel) (plan : UninstallPlan)
    (fileName : String) : UninstallPlan :=
  if envEntryExists fs fileName then
    { plan with to_remove := plan.to_remove ++ [pathJoin root fileName] }
  else plan

/-- One iteration of the catch-all `for item in ai_env_path.iterdir()` loop:
an entry not yet classified is appended to `to_remove` only when it is a
file. -/
def catchAllEntry (root : String) (plan : UninstallPlan) (e : String × Bool) :
    UninstallPlan :=
  let p := pathJoin root e.1
  if p ∉ plan.to_remove ∧ p ∉ plan.to_preserve then
    if e.2 = false then
      { plan with to_remove := plan.to_remove ++ [p] }
    else plan
  else plan

/-- The conda block of `create_uninstall_plan` (pre-existing AllUsers conda
is preserved; the `AI2025` environment is marked for conda-based removal). -/
def condaPhase (pre : PreState) (fs : FSModel) (plan : UninstallPlan) :
    UninstallPlan :=
  if pre.conda_allusers_exists then
    let ap := pre.conda_allusers_path
    let plan1 := { plan with
      pre_existing := plan.pre_existing ++ [ap]
      to_preserve := plan.to_preserve ++ [ap]
      warnings := plan.warnings ++ ["Preserving pre-existing Conda at: " ++ ap] }
    if fs.condaEnvExists then
      { plan1 with conda_env_to_remove := some "AI2025", conda_path := some ap }
    else plan1
  else
    { plan with conda_env_to_remove := none, conda_path := none }

/-- The AI_Lab block of `create_uninstall_plan` (the clone root is removed as
one unit; nesting and a missing `.git` only produce warnings). -/
def labPhase (info : InstallInfo) (fs : FSModel) (plan : UninstallPlan) :
    UninstallPlan :=
  match info.ai_lab_path with
  | none => plan
  | some lp =>
      let plan1 :=
        match info.ai_environment_path with
        | some _ =>
            if fs.envNestedInLab then
              { plan with warnings := plan.warnings
                ++ ["AI_Environment is nested inside AI_Lab - will remove in correct order"] }
            else plan
        | none => plan
      if fs.labExists then
        if fs.labGitExists then
          { plan1 with to_remove := plan1.to_remove ++ [lp] }
        else
          { plan1 with
            warnings := plan1.warnings
              ++ ["AI_Lab is not a git repository (unexpected)"]
            to_remove := plan1.to_remove ++ [lp] }
      else plan1

/-- The `removal_order` computation at the top of `create_uninstall_plan`. -/
def removalOrderOf (info : InstallInfo) : List (String × String) :=
  let envPart :=
    match info.ai_environment_path with
    | some p => [("ai_environment", p)]
    | none => []
  let labPart :=
    match info.ai_lab_path with
    | some p => [("ai_lab", p)]
    | none => []
  if info.install_type = "external_nested" then envPart ++ labPart
  else if info.install_type = "external_nested_partial" then envPart
  else envPart ++ labPart

/-- The `plan` dictionary as first initialised at the top of
`create_uninstall_plan` (empty lists, removal order already computed). -/
def planInit (info : InstallInfo) : UninstallPlan :=
  { ai_environment_path := info.ai_environment_path
    ai_lab_path := info.ai_lab_path
    install_type := info.install_type
    to_remove := []
    to_preserve := []
    backup_needed := []
    pre_existing := []
    warnings := []
    removal_order := removalOrderOf info
    conda_env_to_remove := none
    conda_path := none }

/-- `AutomatedUninstaller.create_uninstall_plan`. -/
def create_uninstall_plan (info : InstallInfo) (options : UninstallOptions)
    (fs : FSModel) : UninstallPlan :=
  let pre := info.status.getD emptyPreState
  let plan1 :=
    match info.ai_environment_path with
    | none => planInit info
    | some root =>
        let planA :=
          env_dirs.foldl (classifyEnvDir root pre options fs) (planInit info)
        let planB := env_metadata_files.foldl (addMetadataFile root fs) planA
        fs.envEntries.foldl (catchAllEntry root) planB
  labPhase info fs (condaPhase pre fs plan1)

/-! ## AutomatedUninstaller `main` (src/automated_uninstaller.py,
lines 1233-1434)

The command line flags become `UninstallArgs`; detection, prompting and the
outcome of the destructive calls become the abstract environment
`UninstallerEnv`.  `mainUninstall` returns the process exit code together
with the list of plans actually handed to `execute_uninstall` (the only
operation that deletes `to_remove` paths or writes backups —
`backup_before_uninstall` is invoked from inside it). -/

/-- Strip the wall-clock timestamps from one step record ("up to timestamp
refresh"). -/
def eraseDetailTimes (d : StepDetail) : StepDetail :=
  { d with startTime := 0, endTime := none }

/-- Strip everything a repeated durable write refreshes: the `last_update`
stamp, the count of on-disk writes, and the per-step start/end timestamps. -/
def eraseTimes (s : Ledger) : Ledger :=
  { s with
    lastUpdate := 0
    saveCount := 0
    stepDetails := fun k => (s.stepDetails k).map eraseDetailTimes }

/-! ## Helper lemmas -/

theorem foldl_min_le_init (xs : List Nat) (a : Nat) :
    xs.foldl Nat.min a ≤ a := by
  induction xs generalizing a with
  | nil => exact Nat.le_refl a
  | cons x xs ih =>
      exact Nat.le_trans (ih (Nat.min a x)) (Nat.min_le_left a x)

theorem foldl_min_le_mem :
    ∀ (xs : List Nat) (a y : Nat), y ∈ xs → xs.foldl Nat.min a ≤ y
  | [], _, _, hy => by cases hy
  | x :: xs, a, y, hy => by
      rcases List.mem_cons.mp hy with rfl | h
      · exact Nat.le_trans (foldl_min_le_init xs (Nat.min a y))
          (Nat.min_le_right a y)
      · exact foldl_min_le_mem xs (Nat.min a x) y h

theorem foldl_min_mem :
    ∀ (xs : List Nat) (a : Nat), xs.foldl Nat.min a ∈ a :: xs
  | [], a => by simp
  | x :: xs, a => by
      have h := foldl_min_mem xs (Nat.min a x)
      rcases List.mem_cons.mp h with h1 | h1
      · show List.foldl Nat.min (Nat.min a x) xs ∈ a :: x :: xs
        rw [h1]
        rcases Nat.le_total a x with hax | hax
        · have h2 : Nat.min a x = a := Nat.min_eq_left hax
          rw [h2]
          exact List.mem_cons_self a _
        · have h2 : Nat.min a x = x := Nat.min_eq_right hax
          rw [h2]
          exact List.mem_cons_of_mem a (List.mem_cons_self x _)
      · exact List.mem_cons_of_mem a (List.mem_cons_of_mem x h1)

theorem listMin_mem (l : List Nat) (h : l ≠ []) : listMin l ∈ l := by
  cases l with
  | nil => exact absurd rfl h
  | cons x xs => exact foldl_min_mem xs x

theorem listMin_le (l : List Nat) (y : Nat) (hy : y ∈ l) : listMin l ≤ y := by
  cases l with
  | nil => cases hy
  | cons x xs =>
      rcases List.mem_cons.mp hy with rfl | h
      · exact foldl_min_le_init xs y
      · exact foldl_min_le_mem xs x y h

theorem findStep_eq_none (n : Nat) (h : ¬(1 ≤ n ∧ n ≤ STEPS.length)) :
    findStep n = none := by
  have hlen : STEPS.length = 8 := rfl
  rw [hlen] at h
  unfold findStep
  rw [Option.map_eq_none']
  rw [List.find?_eq_none]
  intro kv hkv
  fin_cases hkv <;> simp only [beq_iff_eq] <;> omega

/-! ## Claims -/

/-- C1: `get_resume_step` returns the minimum element of `failed_steps`
when that list is non-empty and `current_step` otherwise; in particular a
ledger with `failed_steps = [f]` and `current_step > f` resumes from `f`. -/
theorem get_resume_step_correct (s : Ledger) :
    (s.failedSteps ≠ [] →
      get_resume_step s ∈ s.failedSteps ∧
        ∀ x ∈ s.failedSteps, get_resume_step s ≤ x) ∧
    (s.failedSteps = [] → get_resume_step s = s.currentStep) ∧
    (∀ f : Nat, s.failedSteps = [f] → f < s.currentStep →
      get_resume_step s = f) := by
  refine ⟨?_, ?_, ?_⟩
  · intro h
    have hne : s.failedSteps.isEmpty = false := by
      cases hfs : s.failedSteps with
      | nil => exact absurd hfs h
      | cons a l => simp [hfs]
    unfold get_resume_step
    rw [hne]
    simp only [Bool.false_eq_true, if_false]
    exact ⟨listMin_mem _ h, fun x hx => listMin_le _ x hx⟩
  · intro h
    unfold get_resume_step
    rw [h]
    rfl
  · intro f hf _
    unfold get_resume_step
    rw [hf]
    rfl

/-- Witness for C1 at a concrete ledger with one failed step. -/
theorem get_resume_step_correct_witness :
    get_resume_step { initialLedger with
      failedSteps := [4], currentStep := 6 } = 4 :=
  (get_resume_step_correct _).2.2 4 rfl (by decide)

/-- C8: `get_resume_info` reports `must_complete_uninstall` exactly when one
of the two products is in `Uninstall_Processing`, and in that case
`can_resume` is set and neither per-product install resume flag is set. -/
theorem get_resume_info_uninstall_gate (s : MasterStatus) :
    ((get_resume_info s).must_complete_uninstall = true ↔
      (s.ai_environment_status = STATUS_UNINSTALLING ∨
        s.ai_lab_status = STATUS_UNINSTALLING)) ∧
    ((get_resume_info s).must_complete_uninstall = true →
      (get_resume_info s).can_resume = true ∧
      (get_resume_info s).ai_environment_resume = false ∧
      (get_resume_info s).ai_lab_resume = false) := by
  unfold get_resume_info
  by_cases h : s.ai_environment_status = STATUS_UNINSTALLING ∨
      s.ai_lab_status = STATUS_UNINSTALLING
  · simp [h]
  · rw [if_neg h]
    push_neg at h
    have hPU : STATUS_PROCESSING ≠ STATUS_UNINSTALLING := by decide
    by_cases h1 : s.ai_environment_status = STATUS_PROCESSING <;>
      by_cases h2 : s.ai_lab_status = STATUS_PROCESSING <;>
        simp [h1, h2, h.1, h.2, hPU]

/-- Witness for C8 at a record whose first product is mid-uninstall. -/
theorem get_resume_info_uninstall_gate_witness :
    (get_resume_info
      ⟨STATUS_UNINSTALLING, STATUS_NO_INSTALLATION, 0⟩).can_resume = true ∧
    (get_resume_info
      ⟨STATUS_UNINSTALLING, STATUS_NO_INSTALLATION, 0⟩).ai_environment_resume
      = false ∧
    (get_resume_info
      ⟨STATUS_UNINSTALLING, STATUS_NO_INSTALLATION, 0⟩).ai_lab_resume
      = false :=
  (get_resume_info_uninstall_gate _).2
    ((get_resume_info_uninstall_gate _).1.mpr (Or.inl rfl))

/-- C10: for a step number outside the defined range `1..len(STEPS)`, each of
`start_step`, `complete_step` and `fail_step` returns `False` and leaves the
ledger — including its durable-write counter, so no save happens —
untouched. -/
theorem invalid_step_is_noop (s : Ledger) (now n : Nat) (msg : String)
    (h : ¬(1 ≤ n ∧ n ≤ STEPS.length)) :
    start_step now n s = (false, s) ∧
    complete_step now n s = (false, s) ∧
    fail_step now n msg s = (false, s) := by
  have hf := findStep_eq_none n h
  unfold start_step complete_step fail_step
  rw [hf]
  exact ⟨rfl, rfl, rfl⟩

/-- Witness for C10 at the undefined step number 0. -/
theorem invalid_step_is_noop_witness :
    start_step 5 0 initialLedger = (false, initialLedger) ∧
    complete_step 5 0 initialLedger = (false, initialLedger) ∧
    fail_step 5 0 "boom" initialLedger = (false, initialLedger) :=
  invalid_step_is_noop initialLedger 5 0 "boom" (by decide)

/-- C7: after `reset_from_step n`, provided the step-detail map only holds
records for defined step numbers (as the data model prescribes), no step
number `≥ n` remains in `completed_steps` or `failed_steps`, no step-detail
record with number `≥ n` remains, and `current_step = n`. -/
theorem reset_from_step_correct (s : Ledger) (now n : Nat)
    (hk : ∀ k, STEPS.length < k → s.stepDetails k = none) :
    (reset_from_step now n s).currentStep = n ∧
    (∀ m ∈ (reset_from_step now n s).completedSteps, m < n) ∧
    (∀ m ∈ (reset_from_step now n s).failedSteps, m < n) ∧
    (∀ k, n ≤ k → (reset_from_step now n s).stepDetails k = none) := by
  refine ⟨rfl, ?_, ?_, ?_⟩
  · intro m hm
    have h := List.mem_filter.mp hm
    exact of_decide_eq_true h.2
  · intro m hm
    have h := List.mem_filter.mp hm
    exact of_decide_eq_true h.2
  · intro k hnk
    show (if n ≤ k ∧ k < STEPS.length + 1 then none else s.stepDetails k)
      = none
    by_cases hlt : k < STEPS.length + 1
    · rw [if_pos ⟨hnk, hlt⟩]
    · rw [if_neg (fun hc => hlt hc.2)]
      exact hk k (by omega)

/-- Witness for C7: resetting from step 2 on a ledger with progress past it. -/
theorem reset_from_step_correct_witness :
    (reset_from_step 7 2 { initialLedger with
        completedSteps := [1, 2, 3], failedSteps := [2] }).currentStep = 2 ∧
    (reset_from_step 7 2 { initialLedger with
        completedSteps := [1, 2, 3], failedSteps := [2] }).stepDetails 5
      = none :=
  ⟨(reset_from_step_correct _ 7 2 (fun _ _ => rfl)).1,
   (reset_from_step_correct _ 7 2 (fun _ _ => rfl)).2.2.2 5 (by decide)⟩

/-- C6: on any ledger whose `failed_steps` respects the set semantics of the
data model (no duplicates), calling `complete_step n` twice returns the same
success flag and the same ledger state as calling it once, up to timestamp
refresh: the second call adds nothing to `completed_steps`, removes nothing
further from `failed_steps`, and recomputes the same `current_step`. -/
theorem complete_step_idempotent (s : Ledger) (n t1 t2 : Nat)
    (hnd : s.failedSteps.Nodup) :
    (complete_step t2 n (complete_step t1 n s).2).1
      = (complete_step t1 n s).1 ∧
    eraseTimes (complete_step t2 n (complete_step t1 n s).2).2
      = eraseTimes (complete_step t1 n s).2 := by
  cases hstep : findStep n with
  | none =>
      simp [complete_step, hstep]
  | some sd =>
      constructor
      · simp [complete_step, hstep]
      · have herase2 : (s.failedSteps.erase n).erase n
            = s.failedSteps.erase n := by
          refine List.erase_of_not_mem (fun hmem => ?_)
          exact ((List.Nodup.mem_erase_iff hnd).mp hmem).1 rfl
        have hmemc : n ∈ (if n ∈ s.completedSteps then s.completedSteps
            else s.completedSteps ++ [n]) := by
          by_cases h : n ∈ s.completedSteps
          · simp [h]
          · simp [h]
        cases hd : s.stepDetails n with
        | none =>
            simp [complete_step, hstep, saveStatus, eraseTimes, hd, hmemc,
              herase2]
            intro hcur
            rw [if_pos hcur]
        | some d =>
            simp only [complete_step, hstep, saveStatus, eraseTimes, hd]
            simp only [setDetail, if_pos rfl]
            simp [hmemc, herase2, Ledger.mk.injEq]
            constructor
            · intro hcur
              rw [if_pos hcur]
            · funext k
              by_cases hk : k = n
              · simp [setDetail, hk, eraseDetailTimes]
              · simp [setDetail, hk]

/-- Witness for C6: completing step 3 twice after it had failed. -/
theorem complete_step_idempotent_witness :
    eraseTimes (complete_step 9 3
        (complete_step 7 3 (fail_step 0 3 "e" initialLedger).2).2).2
      = eraseTimes (complete_step 7 3 (fail_step 0 3 "e" initialLedger).2).2 :=
  (complete_step_idempotent _ 3 7 9 (by decide)).2

/-- In every reachable ledger state, `completed_steps` and `failed_steps`
are duplicate-free lists (the set semantics of the data model). -/
theorem reachable_nodup (s : Ledger) (h : Reachable s) :
    s.completedSteps.Nodup ∧ s.failedSteps.Nodup := by
  induction h with
  | init => exact ⟨List.nodup_nil, List.nodup_nil⟩
  | start now n s0 h ih =>
      cases hstep : findStep n with
      | none => simp [start_step, hstep]; exact ih
      | some sd => simp [start_step, hstep, saveStatus]; exact ih
  | complete now n s0 h ih =>
      cases hstep : findStep n with
      | none => simp [complete_step, hstep]; exact ih
      | some sd =>
          simp only [complete_step, hstep, saveStatus]
          constructor
          · by_cases hm : n ∈ s0.completedSteps
            · simp [hm]; exact ih.1
            · simp only [hm, if_false]
              rw [List.nodup_append]
              exact ⟨ih.1, List.nodup_singleton n,
                fun a ha hb => hm ((List.mem_singleton.mp hb) ▸ ha)⟩
          · exact List.Nodup.erase n ih.2
  | fail now n msg s0 h ih =>
      cases hstep : findStep n with
      | none => simp [fail_step, hstep]; exact ih
      | some sd =>
          simp only [fail_step, hstep, saveStatus]
          constructor
          · exact ih.1
          · by_cases hm : n ∈ s0.failedSteps
            · simp [hm]; exact ih.2
            · simp only [hm, if_false]
              rw [List.nodup_append]
              exact ⟨ih.2, List.nodup_singleton n,
                fun a ha hb => hm ((List.mem_singleton.mp hb) ▸ ha)⟩
  | reset now n s0 h ih =>
      exact ⟨List.Nodup.filter _ ih.1, List.Nodup.filter _ ih.2⟩

/-- C2 counterexample: starting from a fresh ledger, `complete_step 3`
followed by `fail_step 3` leaves step 3 in BOTH `completed_steps` and
`failed_steps` — `fail_step` never removes a step from `completed_steps`,
so the claimed mutual-exclusion invariant is violated by a reachable
state. -/
theorem steps_disjoint_counterexample :
    3 ∈ (fail_step 1 3 "err"
          (complete_step 0 3 initialLedger).2).2.completedSteps ∧
    3 ∈ (fail_step 1 3 "err"
          (complete_step 0 3 initialLedger).2).2.failedSteps := by
  constructor <;> decide

/-- C2 amended: a step number can appear in both sets (failing an
already-completed step leaves it in both).  What does hold in every
reachable ledger state is that each of `completed_steps` and `failed_steps`
individually respects the set semantics (no duplicates), and that
completing a defined step does remove it from `failed_steps`. -/
theorem complete_removes_from_failed (s : Ledger) (h : Reachable s)
    (now n : Nat) (hv : findStep n ≠ none) :
    s.completedSteps.Nodup ∧ s.failedSteps.Nodup ∧
    n ∉ (complete_step now n s).2.failedSteps := by
  obtain ⟨h1, h2⟩ := reachable_nodup s h
  refine ⟨h1, h2, ?_⟩
  cases hstep : findStep n with
  | none => exact absurd hstep hv
  | some sd =>
      simp only [complete_step, hstep, saveStatus]
      intro hmem
      exact ((List.Nodup.mem_erase_iff h2).mp hmem).1 rfl

/-- Witness for C2 amended: the state reached by failing step 3 from a
fresh ledger, then completing step 3. -/
theorem complete_removes_from_failed_witness :
    (fail_step 0 3 "e" initialLedger).2.completedSteps.Nodup ∧
    (fail_step 0 3 "e" initialLedger).2.failedSteps.Nodup ∧
    3 ∉ (complete_step 1 3
          (fail_step 0 3 "e" initialLedger).2).2.failedSteps :=
  complete_removes_from_failed _ (Reachable.fail 0 3 "e" _ Reachable.init) 1 3
    (by decide)

/-- C3 counterexample: from a fresh ledger (no uninstall was ever started),
`fail_step 3` then `complete_step 3` leaves `failed_steps` empty while
`resume_available` is still `true` — `complete_step` never recomputes the
flag, so the claimed equivalence fails in a reachable state. -/
theorem resume_flag_not_iff_counterexample :
    (complete_step 1 3 (fail_step 0 3 "net" initialLedger).2).2.failedSteps
      = [] ∧
    (complete_step 1 3
        (fail_step 0 3 "net" initialLedger).2).2.resumeAvailable = true := by
  constructor <;> decide

/-- C3 amended: `resume_available` is not an invariant equivalence but the
result of the last write: `fail_step` on a defined step sets it to `true`,
`complete_step` leaves it unchanged (in particular it stays `true` after a
failed step is completed), and `reset_from_step n` recomputes it as
`n > 1`, regardless of `failed_steps`. -/
theorem resume_flag_behavior (s : Ledger) (now n : Nat) (msg : String) :
    (findStep n ≠ none →
      (fail_step now n msg s).2.resumeAvailable = true) ∧
    (complete_step now n s).2.resumeAvailable = s.resumeAvailable ∧
    (reset_from_step now n s).resumeAvailable = decide (1 < n) := by
  refine ⟨?_, ?_, rfl⟩
  · intro hv
    cases hstep : findStep n with
    | none => exact absurd hstep hv
    | some sd => simp [fail_step, hstep, saveStatus]
  · cases hstep : findStep n with
    | none => simp [complete_step, hstep]
    | some sd => simp [complete_step, hstep, saveStatus]

/-- Witness for C3 amended, at a fresh ledger and step 3. -/
theorem resume_flag_behavior_witness :
    (fail_step 0 3 "x" initialLedger).2.resumeAvailable = true ∧
    (complete_step 0 3 initialLedger).2.resumeAvailable
      = initialLedger.resumeAvailable ∧
    (reset_from_step 0 3 initialLedger).resumeAvailable = decide (1 < 3) :=
  ⟨(resume_flag_behavior initialLedger 0 3 "x").1 (by decide),
   (resume_flag_behavior initialLedger 0 3 "x").2.1,
   (resume_flag_behavior initialLedger 0 3 "x").2.2⟩

theorem pathJoin_right_inj (r a b : String) (h : pathJoin r a = pathJoin r b) :
    a = b := by
  unfold pathJoin at h
  have h2 := congrArg String.data h
  rw [String.data_append, String.data_append] at h2
  exact String.ext (List.append_cancel_left h2)

theorem env_meta_disjoint :
    ∀ d, d ∈ env_dirs → d ∈ env_metadata_files → False := by decide

theorem classifyEnvDir_to_remove (root : String) (pre : PreState)
    (options : UninstallOptions) (fs : FSModel) (p : UninstallPlan)
    (d0 x : String) :
    x ∈ (classifyEnvDir root pre options fs p d0).to_remove ↔
      x ∈ p.to_remove ∨
        (envEntryExists fs d0 = true ∧ d0 ∉ pre.existing_subdirs ∧
          ¬(d0 = "Projects" ∧ options.keep_projects = true) ∧
          x = pathJoin root d0) := by
  unfold classifyEnvDir
  by_cases h3 : d0 = "Projects" ∧ options.keep_projects = true
  · obtain ⟨h3a, h3b⟩ := h3
    subst h3a
    by_cases h1 : envEntryExists fs "Projects" = true <;>
      by_cases h2 : "Projects" ∈ pre.existing_subdirs <;>
        simp [h1, h2, h3b, apply_ite UninstallPlan.to_remove]
  · by_cases h1 : envEntryExists fs d0 = true <;>
      by_cases h2 : d0 ∈ pre.existing_subdirs <;>
        simp [h1, h2, h3, apply_ite UninstallPlan.to_remove]

theorem classifyEnvDir_to_preserve (root : String) (pre : PreState)
    (options : UninstallOptions) (fs : FSModel) (p : UninstallPlan)
    (d0 x : String) :
    x ∈ (classifyEnvDir root pre options fs p d0).to_preserve ↔
      x ∈ p.to_preserve ∨
        (envEntryExists fs d0 = true ∧
          (d0 ∈ pre.existing_subdirs ∨
            (d0 = "Projects" ∧ options.keep_projects = true)) ∧
          x = pathJoin root d0) := by
  unfold classifyEnvDir
  by_cases h3 : d0 = "Projects" ∧ options.keep_projects = true
  · obtain ⟨h3a, h3b⟩ := h3
    subst h3a
    by_cases h1 : envEntryExists fs "Projects" = true <;>
      by_cases h2 : "Projects" ∈ pre.existing_subdirs <;>
        simp [h1, h2, h3b, apply_ite UninstallPlan.to_preserve]
  · by_cases h1 : envEntryExists fs d0 = true <;>
      by_cases h2 : d0 ∈ pre.existing_subdirs <;>
        simp [h1, h2, h3, apply_ite UninstallPlan.to_preserve]

theorem classifyEnvDir_warnings_mono (root : String) (pre : PreState)
    (options : UninstallOptions) (fs : FSModel) (p : UninstallPlan)
    (d0 x : String) (hx : x ∈ p.warnings) :
    x ∈ (classifyEnvDir root pre options fs p d0).warnings := by
  unfold classifyEnvDir
  by_cases h3 : d0 = "Projects" ∧ options.keep_projects = true
  · obtain ⟨h3a, h3b⟩ := h3
    subst h3a
    by_cases h1 : envEntryExists fs "Projects" = true <;>
      by_cases h2 : "Projects" ∈ pre.existing_subdirs <;>
        simp [h1, h2, h3b, apply_ite UninstallPlan.warnings, hx]
  · by_cases h1 : envEntryExists fs d0 = true <;>
      by_cases h2 : d0 ∈ pre.existing_subdirs <;>
        simp [h1, h2, h3, apply_ite UninstallPlan.warnings, hx]

theorem classifyEnvDir_warning_added (root : String) (pre : PreState)
    (options : UninstallOptions) (fs : FSModel) (p : UninstallPlan)
    (d0 : String) (h1 : envEntryExists fs d0 = true)
    (h2 : d0 ∈ pre.existing_subdirs) :
    ("Preserving pre-existing directory: " ++ d0)
      ∈ (classifyEnvDir root pre options fs p d0).warnings := by
  unfold classifyEnvDir
  simp [h1, h2]

theorem envLoop_to_remove_iff (root : String) (pre : PreState)
    (options : UninstallOptions) (fs : FSModel) :
    ∀ (ds : List String) (p : UninstallPlan) (x : String),
      x ∈ (ds.foldl (classifyEnvDir root pre options fs) p).to_remove ↔
        x ∈ p.to_remove ∨
          ∃ d, d ∈ ds ∧ envEntryExists fs d = true ∧
            d ∉ pre.existing_subdirs ∧
            ¬(d = "Projects" ∧ options.keep_projects = true) ∧
            x = pathJoin root d
  | [], p, x => by simp
  | d0 :: ds, p, x => by
      rw [List.foldl_cons, envLoop_to_remove_iff root pre options fs ds _ x,
        classifyEnvDir_to_remove]
      constructor
      · rintro ((hx | hc) | ⟨d, hd, hc⟩)
        · exact Or.inl hx
        · exact Or.inr ⟨d0, List.mem_cons_self _ _, hc⟩
        · exact Or.inr ⟨d, List.mem_cons_of_mem _ hd, hc⟩
      · rintro (hx | ⟨d, hd, hc⟩)
        · exact Or.inl (Or.inl hx)
        · rcases List.mem_cons.mp hd with rfl | hd2
          · exact Or.inl (Or.inr hc)
          · exact Or.inr ⟨d, hd2, hc⟩

theorem envLoop_to_preserve_iff (root : String) (pre : PreState)
    (options : UninstallOptions) (fs : FSModel) :
    ∀ (ds : List String) (p : UninstallPlan) (x : String),
      x ∈ (ds.foldl (classifyEnvDir root pre options fs) p).to_preserve ↔
        x ∈ p.to_preserve ∨
          ∃ d, d ∈ ds ∧ envEntryExists fs d = true ∧
            (d ∈ pre.existing_subdirs ∨
              (d = "Projects" ∧ options.keep_projects = true)) ∧
            x = pathJoin root d
  | [], p, x => by simp
  | d0 :: ds, p, x => by
      rw [List.foldl_cons, envLoop_to_preserve_iff root pre options fs ds _ x,
        classifyEnvDir_to_preserve]
      constructor
      · rintro ((hx | hc) | ⟨d, hd, hc⟩)
        · exact Or.inl hx
        · exact Or.inr ⟨d0, List.mem_cons_self _ _, hc⟩
        · exact Or.inr ⟨d, List.mem_cons_of_mem _ hd, hc⟩
      · rintro (hx | ⟨d, hd, hc⟩)
        · exact Or.inl (Or.inl hx)
        · rcases List.mem_cons.mp hd with rfl | hd2
          · exact Or.inl (Or.inr hc)
          · exact Or.inr ⟨d, hd2, hc⟩

theorem envLoop_warnings_mono (root : String) (pre : PreState)
    (options : UninstallOptions) (fs : FSModel) :
    ∀ (ds : List String) (p : UninstallPlan) (x : String),
      x ∈ p.warnings →
        x ∈ (ds.foldl (classifyEnvDir root pre options fs) p).warnings
  | [], _, _, hx => hx
  | d0 :: ds, p, x, hx =>
      envLoop_warnings_mono root pre options fs ds _ x
        (classifyEnvDir_warnings_mono root pre options fs p d0 x hx)

theorem envLoop_warning_of_mem (root : String) (pre : PreState)
    (options : UninstallOptions) (fs : FSModel) :
    ∀ (ds : List String) (p : UninstallPlan) (d : String), d ∈ ds →
      envEntryExists fs d = true → d ∈ pre.existing_subdirs →
      ("Preserving pre-existing directory: " ++ d)
        ∈ (ds.foldl (classifyEnvDir root pre options fs) p).warnings
  | [], _, _, hd, _, _ => absurd hd (List.not_mem_nil _)
  | d0 :: ds, p, d, hd, h1, h2 => by
      rw [List.foldl_cons]
      rcases List.mem_cons.mp hd with rfl | hd2
      · exact envLoop_warnings_mono root pre options fs ds _ _
          (classifyEnvDir_warning_added root pre options fs p d h1 h2)
      · exact envLoop_warning_of_mem root pre options fs ds _ d hd2 h1 h2

theorem addMetadataFile_to_remove (root : String) (fs : FSModel)
    (p : UninstallPlan) (m0 x : String) :
    x ∈ (addMetadataFile root fs p m0).to_remove ↔
      x ∈ p.to_remove ∨
        (envEntryExists fs m0 = true ∧ x = pathJoin root m0) := by
  unfold addMetadataFile
  by_cases h : envEntryExists fs m0 = true <;> simp [h]

theorem addMetadataFile_to_preserve_eq (root : String) (fs : FSModel)
    (p : UninstallPlan) (m0 : String) :
    (addMetadataFile root fs p m0).to_preserve = p.to_preserve := by
  unfold addMetadataFile
  by_cases h : envEntryExists fs m0 = true <;> simp [h]

theorem addMetadataFile_warnings_eq (root : String) (fs : FSModel)
    (p : UninstallPlan) (m0 : String) :
    (addMetadataFile root fs p m0).warnings = p.warnings := by
  unfold addMetadataFile
  by_cases h : envEntryExists fs m0 = true <;> simp [h]

theorem metaLoop_to_remove_iff (root : String) (fs : FSModel) :
    ∀ (ms : List String) (p : UninstallPlan) (x : String),
      x ∈ (ms.foldl (addMetadataFile root fs) p).to_remove ↔
        x ∈ p.to_remove ∨
          ∃ m, m ∈ ms ∧ envEntryExists fs m = true ∧ x = pathJoin root m
  | [], p, x => by simp
  | m0 :: ms, p, x => by
      rw [List.foldl_cons, metaLoop_to_remove_iff root fs ms _ x,
        addMetadataFile_to_remove]
      constructor
      · rintro ((hx | hc) | ⟨m, hm, hc⟩)
        · exact Or.inl hx
        · exact Or.inr ⟨m0, List.mem_cons_self _ _, hc⟩
        · exact Or.inr ⟨m, List.mem_cons_of_mem _ hm, hc⟩
      · rintro (hx | ⟨m, hm, hc⟩)
        · exact Or.inl (Or.inl hx)
        · rcases List.mem_cons.mp hm with rfl | hm2
          · exact Or.inl (Or.inr hc)
          · exact Or.inr ⟨m, hm2, hc⟩

theorem metaLoop_to_preserve_eq (root : String) (fs : FSModel) :
    ∀ (ms : List String) (p : UninstallPlan),
      (ms.foldl (addMetadataFile root fs) p).to_preserve = p.to_preserve
  | [], _ => rfl
  | m0 :: ms, p => by
      rw [List.foldl_cons, metaLoop_to_preserve_eq root fs ms _,
        addMetadataFile_to_preserve_eq]

theorem metaLoop_warnings_eq (root : String) (fs : FSModel) :
    ∀ (ms : List String) (p : UninstallPlan),
      (ms.foldl (addMetadataFile root fs) p).warnings = p.warnings
  | [], _ => rfl
  | m0 :: ms, p => by
      rw [List.foldl_cons, metaLoop_warnings_eq root fs ms _,
        addMetadataFile_warnings_eq]

theorem catchAllEntry_to_preserve_eq (root : String) (p : UninstallPlan)
    (e : String × Bool) :
    (catchAllEntry root p e).to_preserve = p.to_preserve := by
  unfold catchAllEntry
  by_cases hc : (pathJoin root e.1 ∉ p.to_remove ∧
      pathJoin root e.1 ∉ p.to_preserve)
  · rw [if_pos hc]
    by_cases he : e.2 = false
    · rw [if_pos he]
    · rw [if_neg he]
  · rw [if_neg hc]

theorem catchAllEntry_warnings_eq (root : String) (p : UninstallPlan)
    (e : String × Bool) :
    (catchAllEntry root p e).warnings = p.warnings := by
  unfold catchAllEntry
  by_cases hc : (pathJoin root e.1 ∉ p.to_remove ∧
      pathJoin root e.1 ∉ p.to_preserve)
  · rw [if_pos hc]
    by_cases he : e.2 = false
    · rw [if_pos he]
    · rw [if_neg he]
  · rw [if_neg hc]

theorem catchAllEntry_to_remove_mono (root : String) (p : UninstallPlan)
    (e : String × Bool) (x : String) (hx : x ∈ p.to_remove) :
    x ∈ (catchAllEntry root p e).to_remove := by
  unfold catchAllEntry
  by_cases hc : (pathJoin root e.1 ∉ p.to_remove ∧
      pathJoin root e.1 ∉ p.to_preserve)
  · rw [if_pos hc]
    by_cases he : e.2 = false
    · rw [if_pos he]
      exact List.mem_append_left _ hx
    · rw [if_neg he]
      exact hx
  · rw [if_neg hc]
    exact hx

theorem catchLoop_to_preserve_eq (root : String) :
    ∀ (es : List (String × Bool)) (p : UninstallPlan),
      (es.foldl (catchAllEntry root) p).to_preserve = p.to_preserve
  | [], _ => rfl
  | e :: es, p => by
      rw [List.foldl_cons, catchLoop_to_preserve_eq root es _,
        catchAllEntry_to_preserve_eq]

theorem catchLoop_warnings_eq (root : String) :
    ∀ (es : List (String × Bool)) (p : UninstallPlan),
      (es.foldl (catchAllEntry root) p).warnings = p.warnings
  | [], _ => rfl
  | e :: es, p => by
      rw [List.foldl_cons, catchLoop_warnings_eq root es _,
        catchAllEntry_warnings_eq]

theorem catchLoop_to_remove_mono (root : String) :
    ∀ (es : List (String × Bool)) (p : UninstallPlan) (x : String),
      x ∈ p.to_remove → x ∈ (es.foldl (catchAllEntry root) p).to_remove
  | [], _, _, hx => hx
  | e :: es, p, x, hx =>
      catchLoop_to_remove_mono root es _ x
        (catchAllEntry_to_remove_mono root p e x hx)

theorem catchLoop_coverage (root : String) :
    ∀ (es : List (String × Bool)) (p : UninstallPlan) (nm : String),
      (nm, false) ∈ es →
      pathJoin root nm ∈ (es.foldl (catchAllEntry root) p).to_remove ∨
        pathJoin root nm ∈ p.to_preserve
  | [], _, _, h => absurd h (List.not_mem_nil _)
  | e :: es, p, nm, h => by
      rw [List.foldl_cons]
      rcases List.mem_cons.mp h with rfl | h2
      · by_cases hr : pathJoin root nm ∈ p.to_remove
        · exact Or.inl (catchLoop_to_remove_mono root es _ _
            (catchAllEntry_to_remove_mono root p (nm, false) _ hr))
        · by_cases hp : pathJoin root nm ∈ p.to_preserve
          · exact Or.inr hp
          · refine Or.inl (catchLoop_to_remove_mono root es _ _ ?_)
            unfold catchAllEntry
            rw [if_pos ⟨hr, hp⟩, if_pos rfl]
            exact List.mem_append_right _ (List.mem_singleton_self _)
      · rcases catchLoop_coverage root es (catchAllEntry root p e) nm h2
          with h3 | h3
        · exact Or.inl h3
        · rw [catchAllEntry_to_preserve_eq] at h3
          exact Or.inr h3

theorem catchLoop_new_from_file (root : String) :
    ∀ (es : List (String × Bool)) (p : UninstallPlan) (x : String),
      x ∈ (es.foldl (catchAllEntry root) p).to_remove →
      x ∈ p.to_remove ∨ ∃ e, e ∈ es ∧ e.2 = false ∧ x = pathJoin root e.1
  | [], _, _, h => Or.inl h
  | e :: es, p, x, h => by
      rw [List.foldl_cons] at h
      rcases catchLoop_new_from_file root es _ x h with h2 | ⟨e2, he2, hf2, heq2⟩
      · unfold catchAllEntry at h2
        by_cases hc : (pathJoin root e.1 ∉ p.to_remove ∧
            pathJoin root e.1 ∉ p.to_preserve)
        · rw [if_pos hc] at h2
          by_cases he : e.2 = false
          · rw [if_pos he] at h2
            rcases List.mem_append.mp h2 with h3 | h3
            · exact Or.inl h3
            · exact Or.inr ⟨e, List.mem_cons_self _ _, he,
                List.mem_singleton.mp h3⟩
          · rw [if_neg he] at h2
            exact Or.inl h2
        · rw [if_neg hc] at h2
          exact Or.inl h2
      · exact Or.inr ⟨e2, List.mem_cons_of_mem _ he2, hf2, heq2⟩

theorem nodup_names_unique_kind :
    ∀ (es : List (String × Bool)), (es.map Prod.fst).Nodup →
      ∀ nm, (nm, true) ∈ es → (nm, false) ∈ es → False
  | [], _, _, h1, _ => absurd h1 (List.not_mem_nil _)
  | e :: es, h, nm, h1, h2 => by
      rw [List.map_cons] at h
      have hnd := List.nodup_cons.mp h
      rcases List.mem_cons.mp h1 with he1 | he1 <;>
        rcases List.mem_cons.mp h2 with he2 | he2
      · exact Bool.noConfusion (congrArg Prod.snd (he1.trans he2.symm))
      · apply hnd.1
        rw [← he1]
        exact List.mem_map.mpr ⟨(nm, false), he2, rfl⟩
      · apply hnd.1
        rw [← he2]
        exact List.mem_map.mpr ⟨(nm, true), he1, rfl⟩
      · exact nodup_names_unique_kind es hnd.2 nm he1 he2

theorem catchLoop_no_new_at_preserved (root : String) :
    ∀ (es : List (String × Bool)) (p : UninstallPlan) (x : String),
      x ∈ p.to_preserve →
      x ∈ (es.foldl (catchAllEntry root) p).to_remove → x ∈ p.to_remove
  | [], _, _, _, hr => hr
  | e :: es, p, x, hp, hr => by
      rw [List.foldl_cons] at hr
      have hp2 : x ∈ (catchAllEntry root p e).to_preserve := by
        rw [catchAllEntry_to_preserve_eq]
        exact hp
      have h2 := catchLoop_no_new_at_preserved root es _ x hp2 hr
      unfold catchAllEntry at h2
      by_cases hc : (pathJoin root e.1 ∉ p.to_remove ∧
          pathJoin root e.1 ∉ p.to_preserve)
      · rw [if_pos hc] at h2
        by_cases he : e.2 = false
        · rw [if_pos he] at h2
          rcases List.mem_append.mp h2 with h3 | h3
          · exact h3
          · exact absurd (List.mem_singleton.mp h3 ▸ hp) hc.2
        · rw [if_neg he] at h2
          exact h2
      · rw [if_neg hc] at h2
        exact h2

theorem condaPhase_to_remove_eq (pre : PreState) (fs : FSModel)
    (p : UninstallPlan) :
    (condaPhase pre fs p).to_remove = p.to_remove := by
  unfold condaPhase
  by_cases h1 : pre.conda_allusers_exists = true <;>
    by_cases h2 : fs.condaEnvExists = true <;> simp [h1, h2]

theorem condaPhase_to_preserve_iff (pre : PreState) (fs : FSModel)
    (p : UninstallPlan) (x : String) :
    x ∈ (condaPhase pre fs p).to_preserve ↔
      x ∈ p.to_preserve ∨
        (pre.conda_allusers_exists = true ∧ x = pre.conda_allusers_path) := by
  unfold condaPhase
  by_cases h1 : pre.conda_allusers_exists = true <;>
    by_cases h2 : fs.condaEnvExists = true <;> simp [h1, h2, eq_comm]

theorem condaPhase_warnings_mono (pre : PreState) (fs : FSModel)
    (p : UninstallPlan) (x : String) (hx : x ∈ p.warnings) :
    x ∈ (condaPhase pre fs p).warnings := by
  unfold condaPhase
  by_cases h1 : pre.conda_allusers_exists = true <;>
    by_cases h2 : fs.condaEnvExists = true <;> simp [h1, h2, hx]

theorem labPhase_to_preserve_eq (info : InstallInfo) (fs : FSModel)
    (p : UninstallPlan) :
    (labPhase info fs p).to_preserve = p.to_preserve := by
  unfold labPhase
  cases hl : info.ai_lab_path with
  | none => rfl
  | some lp =>
      cases he : info.ai_environment_path <;>
        by_cases h1 : fs.envNestedInLab = true <;>
          by_cases h2 : fs.labExists = true <;>
            by_cases h3 : fs.labGitExists = true <;>
              simp [h1, h2, h3]

theorem labPhase_to_remove_iff (info : InstallInfo) (fs : FSModel)
    (p : UninstallPlan) (x : String) :
    x ∈ (labPhase info fs p).to_remove ↔
      x ∈ p.to_remove ∨
        (∃ lp, info.ai_lab_path = some lp ∧ fs.labExists = true ∧ x = lp) := by
  unfold labPhase
  cases hl : info.ai_lab_path with
  | none => simp
  | some lp =>
      cases he : info.ai_environment_path <;>
        by_cases h1 : fs.envNestedInLab = true <;>
          by_cases h2 : fs.labExists = true <;>
            by_cases h3 : fs.labGitExists = true <;>
              simp [h1, h2, h3, eq_comm]

theorem labPhase_warnings_mono (info : InstallInfo) (fs : FSModel)
    (p : UninstallPlan) (x : String) (hx : x ∈ p.warnings) :
    x ∈ (labPhase info fs p).warnings := by
  unfold labPhase
  cases hl : info.ai_lab_path with
  | none => exact hx
  | some lp =>
      cases he : info.ai_environment_path <;>
        by_cases h1 : fs.envNestedInLab = true <;>
          by_cases h2 : fs.labExists = true <;>
            by_cases h3 : fs.labGitExists = true <;>
              simp [h1, h2, h3, hx]

theorem create_uninstall_plan_eq (info : InstallInfo)
    (options : UninstallOptions) (fs : FSModel) (root : String)
    (hroot : info.ai_environment_path = some root) :
    create_uninstall_plan info options fs =
      labPhase info fs (condaPhase (info.status.getD emptyPreState) fs
        (fs.envEntries.foldl (catchAllEntry root)
          (env_metadata_files.foldl (addMetadataFile root fs)
            (env_dirs.foldl
              (classifyEnvDir root (info.status.getD emptyPreState) options fs)
              (planInit info))))) := by
  unfold create_uninstall_plan
  rw [hroot]

/-- C5 counterexample: with `preExistingSubdirs = {MyData, README.md}` and
both present as top-level directories, the plan (a) puts the pre-existing
directory named like the metadata file `README.md` into `to_remove` (the
metadata loop checks only existence, not kind or snapshot membership), and
(b) never puts the pre-existing directory `MyData` — whose name is outside
the fixed owned list — into `to_preserve`.  Both halves of the claim fail. -/
theorem preexisting_preserve_counterexample :
    "E:/AI_Environment/README.md" ∈ (create_uninstall_plan
      { ai_environment_path := some "E:/AI_Environment"
        ai_lab_path := none
        install_type := "portable"
        status := some
          { existing_subdirs := ["MyData", "README.md"]
            conda_allusers_exists := false
            conda_allusers_path := "C:/ProgramData/miniconda3" } }
      ⟨false, false, false, false⟩
      { envEntries := [("MyData", true), ("README.md", true)]
        condaEnvExists := false
        labExists := false
        labGitExists := false
        envNestedInLab := false }).to_remove ∧
    "E:/AI_Environment/MyData" ∉ (create_uninstall_plan
      { ai_environment_path := some "E:/AI_Environment"
        ai_lab_path := none
        install_type := "portable"
        status := some
          { existing_subdirs := ["MyData", "README.md"]
            conda_allusers_exists := false
            conda_allusers_path := "C:/ProgramData/miniconda3" } }
      ⟨false, false, false, false⟩
      { envEntries := [("MyData", true), ("README.md", true)]
        condaEnvExists := false
        labExists := false
        labGitExists := false
        envNestedInLab := false }).to_preserve := by
  constructor <;> decide

/-- C5 amended: the preserve-safety guarantee holds for the fixed owned
subdirectory list: a directory from `env_dirs` whose name is recorded in the
snapshot's `existing_subdirs` and which exists on disk is placed in
`to_preserve` with the "Preserving pre-existing directory" warning and never
in `to_remove` (assuming the AI_Lab root is a different path).  Pre-existing
directories outside the fixed list are left in neither set, and a
pre-existing directory sharing a metadata file name can land in `to_remove`
(see the counterexample). -/
theorem preexisting_fixed_dirs_preserved (info : InstallInfo)
    (options : UninstallOptions) (fs : FSModel) (root d : String)
    (hroot : info.ai_environment_path = some root)
    (hd : d ∈ env_dirs)
    (hex : envEntryExists fs d = true)
    (hpre : d ∈ (info.status.getD emptyPreState).existing_subdirs)
    (hlab : ∀ lp, info.ai_lab_path = some lp → lp ≠ pathJoin root d) :
    pathJoin root d ∈ (create_uninstall_plan info options fs).to_preserve ∧
    pathJoin root d ∉ (create_uninstall_plan info options fs).to_remove ∧
    ("Preserving pre-existing directory: " ++ d)
      ∈ (create_uninstall_plan info options fs).warnings := by
  rw [create_uninstall_plan_eq info options fs root hroot]
  have hPA : pathJoin root d ∈ (env_dirs.foldl
      (classifyEnvDir root (info.status.getD emptyPreState) options fs)
      (planInit info)).to_preserve := by
    rw [envLoop_to_preserve_iff]
    exact Or.inr ⟨d, hd, hex, Or.inl hpre, rfl⟩
  have hPB : pathJoin root d ∈ (env_metadata_files.foldl
      (addMetadataFile root fs)
      (env_dirs.foldl
        (classifyEnvDir root (info.status.getD emptyPreState) options fs)
        (planInit info))).to_preserve := by
    rw [metaLoop_to_preserve_eq]
    exact hPA
  have hPC : pathJoin root d ∈ (fs.envEntries.foldl (catchAllEntry root)
      (env_metadata_files.foldl (addMetadataFile root fs)
        (env_dirs.foldl
          (classifyEnvDir root (info.status.getD emptyPreState) options fs)
          (planInit info)))).to_preserve := by
    rw [catchLoop_to_preserve_eq]
    exact hPB
  refine ⟨?_, ?_, ?_⟩
  · rw [labPhase_to_preserve_eq, condaPhase_to_preserve_iff]
    exact Or.inl hPC
  · intro hmem
    rw [labPhase_to_remove_iff] at hmem
    rcases hmem with hmem | ⟨lp, hlp, _, hxeq⟩
    · rw [condaPhase_to_remove_eq] at hmem
      have hmB := catchLoop_no_new_at_preserved root fs.envEntries _ _
        hPB hmem
      rw [metaLoop_to_remove_iff] at hmB
      rcases hmB with hmA | ⟨m, hm, _, hmeq⟩
      · rw [envLoop_to_remove_iff] at hmA
        rcases hmA with h0 | ⟨d2, _, _, hnotin, _, heq⟩
        · exact absurd h0 (List.not_mem_nil _)
        · have hdd : d = d2 := pathJoin_right_inj root d d2 heq
          exact hnotin (hdd ▸ hpre)
      · have hdm : d = m := pathJoin_right_inj root d m hmeq
        exact env_meta_disjoint d hd (hdm ▸ hm)
    · exact hlab lp hlp hxeq.symm
  · apply labPhase_warnings_mono
    apply condaPhase_warnings_mono
    rw [catchLoop_warnings_eq, metaLoop_warnings_eq]
    exact envLoop_warning_of_mem root (info.status.getD emptyPreState)
      options fs env_dirs _ d hd hex hpre

/-- Witness for C5 amended: a pre-existing `Projects` directory is preserved
with a warning and not removed. -/
theorem preexisting_fixed_dirs_preserved_witness :
    pathJoin "E:/AI_Environment" "Projects" ∈ (create_uninstall_plan
      { ai_environment_path := some "E:/AI_Environment"
        ai_lab_path := none
        install_type := "portable"
        status := some
          { existing_subdirs := ["Projects"]
            conda_allusers_exists := false
            conda_allusers_path := "C:/ProgramData/miniconda3" } }
      ⟨false, false, false, false⟩
      { envEntries := [("Projects", true)]
        condaEnvExists := false
        labExists := false
        labGitExists := false
        envNestedInLab := false }).to_preserve ∧
    pathJoin "E:/AI_Environment" "Projects" ∉ (create_uninstall_plan
      { ai_environment_path := some "E:/AI_Environment"
        ai_lab_path := none
        install_type := "portable"
        status := some
          { existing_subdirs := ["Projects"]
            conda_allusers_exists := false
            conda_allusers_path := "C:/ProgramData/miniconda3" } }
      ⟨false, false, false, false⟩
      { envEntries := [("Projects", true)]
        condaEnvExists := false
        labExists := false
        labGitExists := false
        envNestedInLab := false }).to_remove ∧
    ("Preserving pre-existing directory: " ++ "Projects")
      ∈ (create_uninstall_plan
      { ai_environment_path := some "E:/AI_Environment"
        ai_lab_path := none
        install_type := "portable"
        status := some
          { existing_subdirs := ["Projects"]
            conda_allusers_exists := false
            conda_allusers_path := "C:/ProgramData/miniconda3" } }
      ⟨false, false, false, false⟩
      { envEntries := [("Projects", true)]
        condaEnvExists := false
        labExists := false
        labGitExists := false
        envNestedInLab := false }).warnings :=
  preexisting_fixed_dirs_preserved _ _ _ "E:/AI_Environment" "Projects"
    rfl (by decide) (by decide) (by decide)
    (fun lp h => Option.noConfusion h)

/-- C4 counterexample: a top-level directory `ExtraDir`, enumerated by the
catch-all scan but outside the fixed `env_dirs` list and not pre-existing,
is placed in neither `to_remove` nor `to_preserve` — the catch-all only
classifies files (`item.is_file()`), so an enumerated directory entry is
silently dropped from both sets. -/
theorem plan_partition_counterexample :
    ("ExtraDir", true) ∈ ([("ExtraDir", true)] : List (String × Bool)) ∧
    "E:/AI_Environment/ExtraDir" ∉ (create_uninstall_plan
      { ai_environment_path := some "E:/AI_Environment"
        ai_lab_path := none
        install_type := "portable"
        status := none }
      ⟨false, false, false, false⟩
      { envEntries := [("ExtraDir", true)]
        condaEnvExists := false
        labExists := false
        labGitExists := false
        envNestedInLab := false }).to_remove ∧
    "E:/AI_Environment/ExtraDir" ∉ (create_uninstall_plan
      { ai_environment_path := some "E:/AI_Environment"
        ai_lab_path := none
        install_type := "portable"
        status := none }
      ⟨false, false, false, false⟩
      { envEntries := [("ExtraDir", true)]
        condaEnvExists := false
        labExists := false
        labGitExists := false
        envNestedInLab := false }).to_preserve := by
  refine ⟨List.mem_singleton_self _, ?_, ?_⟩ <;> decide

/-- Exactly-one classification for an enumerated top-level file. -/
theorem plan_file_part (info : InstallInfo) (options : UninstallOptions)
    (fs : FSModel) (root nm : String)
    (hroot : info.ai_environment_path = some root)
    (hlab : ∀ lp, info.ai_lab_path = some lp → lp ≠ pathJoin root nm)
    (hconda : ¬((info.status.getD emptyPreState).conda_allusers_exists = true ∧
      pathJoin root nm
        = (info.status.getD emptyPreState).conda_allusers_path))
    (hf : (nm, false) ∈ fs.envEntries) :
    (pathJoin root nm ∈ (create_uninstall_plan info options fs).to_remove ∧
      pathJoin root nm ∉ (create_uninstall_plan info options fs).to_preserve)
    ∨
    (pathJoin root nm ∉ (create_uninstall_plan info options fs).to_remove ∧
      pathJoin root nm ∈
        (create_uninstall_plan info options fs).to_preserve) := by
  rw [create_uninstall_plan_eq info options fs root hroot]
  by_cases hx : pathJoin root nm ∈ (env_dirs.foldl
      (classifyEnvDir root (info.status.getD emptyPreState) options fs)
      (planInit info)).to_preserve
  · -- classified as preserved by the owned-directory loop
    right
    have hPB : pathJoin root nm ∈ (env_metadata_files.foldl
        (addMetadataFile root fs)
        (env_dirs.foldl
          (classifyEnvDir root (info.status.getD emptyPreState) options fs)
          (planInit info))).to_preserve := by
      rw [metaLoop_to_preserve_eq]
      exact hx
    constructor
    · intro hmem
      rw [labPhase_to_remove_iff] at hmem
      rcases hmem with hmem | ⟨lp, hlp, _, hxeq⟩
      · rw [condaPhase_to_remove_eq] at hmem
        have hmB := catchLoop_no_new_at_preserved root fs.envEntries _ _
          hPB hmem
        rw [metaLoop_to_remove_iff] at hmB
        have hxA := hx
        rw [envLoop_to_preserve_iff] at hxA
        rcases hxA with h0 | ⟨d2, hd2, _, hcond2, heq2⟩
        · exact absurd h0 (List.not_mem_nil _)
        · rcases hmB with hmA | ⟨m, hm, _, hmeq⟩
          · rw [envLoop_to_remove_iff] at hmA
            rcases hmA with h0 | ⟨d3, _, _, hnotin3, hnp3, heq3⟩
            · exact absurd h0 (List.not_mem_nil _)
            · have h23 : d2 = d3 :=
                pathJoin_right_inj root d2 d3 (heq2 ▸ heq3)
              rcases hcond2 with hc | hc
              · exact hnotin3 (h23 ▸ hc)
              · exact hnp3 (h23 ▸ hc)
          · have h2m : d2 = m :=
              pathJoin_right_inj root d2 m (heq2 ▸ hmeq)
            exact env_meta_disjoint d2 hd2 (h2m ▸ hm)
      · exact hlab lp hlp hxeq.symm
    · rw [labPhase_to_preserve_eq, condaPhase_to_preserve_iff]
      refine Or.inl ?_
      rw [catchLoop_to_preserve_eq]
      exact hPB
  · -- not preserved: the catch-all scan removes the file
    left
    have hPB : pathJoin root nm ∉ (env_metadata_files.foldl
        (addMetadataFile root fs)
        (env_dirs.foldl
          (classifyEnvDir root (info.status.getD emptyPreState) options fs)
          (planInit info))).to_preserve := by
      rw [metaLoop_to_preserve_eq]
      exact hx
    have hcov := catchLoop_coverage root fs.envEntries
      (env_metadata_files.foldl (addMetadataFile root fs)
        (env_dirs.foldl
          (classifyEnvDir root (info.status.getD emptyPreState) options fs)
          (planInit info))) nm hf
    rcases hcov with hcov | hcov
    · constructor
      · rw [labPhase_to_remove_iff]
        refine Or.inl ?_
        rw [condaPhase_to_remove_eq]
        exact hcov
      · intro hmem
        rw [labPhase_to_preserve_eq, condaPhase_to_preserve_iff] at hmem
        rcases hmem with hmem | ⟨hae, heqc⟩
        · rw [catchLoop_to_preserve_eq] at hmem
          exact hPB hmem
        · exact hconda ⟨hae, heqc⟩
    · exact absurd hcov hPB

/-- An enumerated top-level directory whose name is outside both fixed name
lists is classified into neither set. -/
theorem plan_dir_part (info : InstallInfo) (options : UninstallOptions)
    (fs : FSModel) (root nm : String)
    (hroot : info.ai_environment_path = some root)
    (hlab : ∀ lp, info.ai_lab_path = some lp → lp ≠ pathJoin root nm)
    (hconda : ¬((info.status.getD emptyPreState).conda_allusers_exists = true ∧
      pathJoin root nm
        = (info.status.getD emptyPreState).conda_allusers_path))
    (hdir : (nm, true) ∈ fs.envEntries)
    (hnodup : (fs.envEntries.map Prod.fst).Nodup)
    (henv : nm ∉ env_dirs) (hmeta : nm ∉ env_metadata_files) :
    pathJoin root nm ∉ (create_uninstall_plan info options fs).to_remove ∧
    pathJoin root nm ∉ (create_uninstall_plan info options fs).to_preserve
    := by
  rw [create_uninstall_plan_eq info options fs root hroot]
  constructor
  · intro hmem
    rw [labPhase_to_remove_iff] at hmem
    rcases hmem with hmem | ⟨lp, hlp, _, hxeq⟩
    · rw [condaPhase_to_remove_eq] at hmem
      rcases catchLoop_new_from_file root fs.envEntries _ _ hmem with
        hmB | ⟨e, he, hef, heq⟩
      · rw [metaLoop_to_remove_iff] at hmB
        rcases hmB with hmA | ⟨m, hm, _, hmeq⟩
        · rw [envLoop_to_remove_iff] at hmA
          rcases hmA with h0 | ⟨d, hd, _, _, _, heqd⟩
          · exact absurd h0 (List.not_mem_nil _)
          · refine henv ?_
            rw [pathJoin_right_inj root nm d heqd]
            exact hd
        · refine hmeta ?_
          rw [pathJoin_right_inj root nm m hmeq]
          exact hm
      · rcases e with ⟨e1, e2⟩
        have he1 : nm = e1 := pathJoin_right_inj root nm e1 heq
        subst he1
        have he2 : e2 = false := hef
        subst he2
        exact nodup_names_unique_kind fs.envEntries hnodup nm hdir he
    · exact hlab lp hlp hxeq.symm
  · intro hmem
    rw [labPhase_to_preserve_eq, condaPhase_to_preserve_iff] at hmem
    rcases hmem with hmem | ⟨hae, heqc⟩
    · rw [catchLoop_to_preserve_eq, metaLoop_to_preserve_eq,
        envLoop_to_preserve_iff] at hmem
      rcases hmem with h0 | ⟨d, hd, _, _, heqd⟩
      · exact absurd h0 (List.not_mem_nil _)
      · refine henv ?_
        rw [pathJoin_right_inj root nm d heqd]
        exact hd
    · exact hconda ⟨hae, heqc⟩

/-- Any existing top-level entry named like a fixed metadata file is put in
`to_remove` by the metadata loop. -/
theorem plan_meta_part (info : InstallInfo) (options : UninstallOptions)
    (fs : FSModel) (root nm : String)
    (hroot : info.ai_environment_path = some root)
    (hex : envEntryExists fs nm = true) (hm : nm ∈ env_metadata_files) :
    pathJoin root nm ∈ (create_uninstall_plan info options fs).to_remove := by
  rw [create_uninstall_plan_eq info options fs root hroot,
    labPhase_to_remove_iff]
  refine Or.inl ?_
  rw [condaPhase_to_remove_eq]
  apply catchLoop_to_remove_mono
  rw [metaLoop_to_remove_iff]
  exact Or.inr ⟨nm, hm, hex, rfl⟩

/-- C4 amended: (i) every top-level *file* enumerated under product A's root
is placed in exactly one of `to_remove`/`to_preserve` (assuming the AI_Lab
root and a pre-existing conda path do not collide with the file's path);
(ii) an enumerated top-level *directory* whose name is outside both the
fixed owned list and the fixed metadata file list is left in neither set
(the partition is not complete for directories); (iii) any top-level entry
— directory included — named like one of the fixed metadata files is placed
in `to_remove`. -/
theorem plan_classifies_every_file (info : InstallInfo)
    (options : UninstallOptions) (fs : FSModel) (root nm : String)
    (hroot : info.ai_environment_path = some root)
    (hlab : ∀ lp, info.ai_lab_path = some lp → lp ≠ pathJoin root nm)
    (hconda : ¬((info.status.getD emptyPreState).conda_allusers_exists = true ∧
      pathJoin root nm
        = (info.status.getD emptyPreState).conda_allusers_path)) :
    ((nm, false) ∈ fs.envEntries →
      (pathJoin root nm ∈ (create_uninstall_plan info options fs).to_remove ∧
        pathJoin root nm ∉
          (create_uninstall_plan info options fs).to_preserve)
      ∨
      (pathJoin root nm ∉ (create_uninstall_plan info options fs).to_remove ∧
        pathJoin root nm ∈
          (create_uninstall_plan info options fs).to_preserve)) ∧
    ((nm, true) ∈ fs.envEntries → (fs.envEntries.map Prod.fst).Nodup →
      nm ∉ env_dirs → nm ∉ env_metadata_files →
      pathJoin root nm ∉ (create_uninstall_plan info options fs).to_remove ∧
      pathJoin root nm ∉
        (create_uninstall_plan info options fs).to_preserve) ∧
    (envEntryExists fs nm = true → nm ∈ env_metadata_files →
      pathJoin root nm ∈ (create_uninstall_plan info options fs).to_remove)
    :=
  ⟨fun hf => plan_file_part info options fs root nm hroot hlab hconda hf,
   fun hdir hnodup henv hmeta =>
     plan_dir_part info options fs root nm hroot hlab hconda hdir hnodup
       henv hmeta,
   fun hex hm => plan_meta_part info options fs root nm hroot hex hm⟩

/-- Witness for C4 amended: a stray top-level file is caught by the
catch-all scan and removed. -/
theorem plan_classifies_every_file_witness :
    (pathJoin "E:/AI_Environment" "stray.txt" ∈ (create_uninstall_plan
      { ai_environment_path := some "E:/AI_Environment"
        ai_lab_path := none
        install_type := "portable"
        status := none }
      ⟨false, false, false, false⟩
      { envEntries := [("stray.txt", false)]
        condaEnvExists := false
        labExists := false
        labGitExists := false
        envNestedInLab := false }).to_remove ∧
    pathJoin "E:/AI_Environment" "stray.txt" ∉ (create_uninstall_plan
      { ai_environment_path := some "E:/AI_Environment"
        ai_lab_path := none
        install_type := "portable"
        status := none }
      ⟨false, false, false, false⟩
      { envEntries := [("stray.txt", false)]
        condaEnvExists := false
        labExists := false
        labGitExists := false
        envNestedInLab := false }).to_preserve) ∨
    (pathJoin "E:/AI_Environment" "stray.txt" ∉ (create_uninstall_plan
      { ai_environment_path := some "E:/AI_Environment"
        ai_lab_path := none
        install_type := "portable"
        status := none }
      ⟨false, false, false, false⟩
      { envEntries := [("stray.txt", false)]
        condaEnvExists := false
        labExists := false
        labGitExists := false
        envNestedInLab := false }).to_remove ∧
    pathJoin "E:/AI_Environment" "stray.txt" ∈ (create_uninstall_plan
      { ai_environment_path := some "E:/AI_Environment"
        ai_lab_path := none
        install_type := "portable"
        status := none }
      ⟨false, false, false, false⟩
      { envEntries := [("stray.txt", false)]
        condaEnvExists := false
        labExists := false
        labGitExists := false
        envNestedInLab := false }).to_preserve) :=
  (plan_classifies_every_file _ _ _ "E:/AI_Environment" "stray.txt"
    rfl (fun lp h => Option.noConfusion h) (by decide)).1 (by decide)

end AiiInstaller
